import Mathlib

/-!
Verification development for the AgroLink backend.

The definitions below are a shallow embedding of the Python source:

* `utils/mpesa.py` — tolerant parsers over the gateway callback payload
  (`extract_checkout_request_id`, `extract_mpesa_receipt`,
  `callback_successful`).
* `utils/delivery.py` — `estimate_delivery_cost`.
* `resources/orders.py` — `OrderList.post` (checkout),
  `MpesaCallbackResource.post`, `OrderStatusUpdateResource.patch`.
* `resources/cart.py` — `_normalise_items`, `CartResource.put`.
* `resources/auth.py` — `verify_email`.
* `app.py` — `delete_user`.

Modelling conventions: JSON payloads are an inductive `JVal` (JSON floats
are not modelled; the claims under study only involve integers, strings and
containers).  Monetary amounts and weights are rationals — the source's
`Decimal`/`float` values idealised exactly.  Machine timestamps are `Nat`
instants.  The relational store is a record of lists (`DB`); a request
handler is a pure function `DB → … → Response × DB`, a raised-and-uncaught
Python exception inside a handler's try-block is the rollback branch
returning the original `DB` with a 500-style response, and a raising parser
is `Except`-valued.
-/

/-- A JSON value as Python's `json` module would deliver it (floats omitted).
Objects are association lists; Python dict keys are unique, lookups take the
first match. -/
inductive JVal where
  | null : JVal
  | bool : Bool → JVal
  | num : Int → JVal
  | str : String → JVal
  | arr : List JVal → JVal
  | obj : List (String × JVal) → JVal

/-- `x is None` for a JSON value (a stored JSON null). -/
def isNullJ : JVal → Bool
  | .null => true
  | _ => false

/-- Python truthiness of a JSON value (`if x:`). -/
def truthy : JVal → Bool
  | .null => false
  | .bool b => b
  | .num n => n ≠ 0
  | .str s => s ≠ ""
  | .arr xs => ¬ xs.isEmpty
  | .obj kvs => ¬ kvs.isEmpty

/-- `d.get(k)` on a JSON object: `none` models Python `None`. -/
def jget (kvs : List (String × JVal)) (k : String) : Option JVal :=
  (kvs.find? (fun kv => kv.1 = k)).map (fun kv => kv.2)

/-- Python `a or b` over two `dict.get` results: the first operand is kept
only when it is present and truthy. -/
def pyOr (a b : Option JVal) : Option JVal :=
  match a with
  | some v => if truthy v then some v else b
  | none => b

/-- Whitespace stripped by Python `int(str)`. -/
def isPySpace (c : Char) : Bool :=
  c = ' ' ∨ c = '\t' ∨ c = '\n' ∨ c = '\r' ∨ c = '\x0b' ∨ c = '\x0c'

/-- No two consecutive underscores. -/
def noDoubleUnderscore : List Char → Bool
  | [] => true
  | [_] => true
  | a :: b :: t => ¬ (a = '_' ∧ b = '_') && noDoubleUnderscore (b :: t)

/-- Numeric value of a digit list. -/
def digitsVal (cs : List Char) : Nat :=
  cs.foldl (fun acc c => acc * 10 + (c.toNat - 48)) 0

/-- Parse an unsigned digit group as Python `int` does: nonempty, digits with
single underscores strictly between digits. -/
def pyDigits (cs : List Char) : Option Nat :=
  if cs ≠ [] ∧ cs.head? ≠ some '_' ∧ cs.getLast? ≠ some '_' ∧
      noDoubleUnderscore cs ∧ cs.all (fun c => c.isDigit ∨ c = '_') then
    some (digitsVal (cs.filter (fun c => c ≠ '_')))
  else none

/-- Python `int(s)` for a string argument. -/
def pyStrToInt (s : String) : Option Int :=
  let cs := ((s.toList.dropWhile isPySpace).reverse.dropWhile isPySpace).reverse
  match cs with
  | '+' :: rest => (pyDigits rest).map (fun n => (n : Int))
  | '-' :: rest => (pyDigits rest).map (fun n => -(n : Int))
  | rest => (pyDigits rest).map (fun n => (n : Int))

/-- Python `int(x)` over a JSON value; `none` is a raised
`TypeError`/`ValueError`. -/
def pyInt : JVal → Option Int
  | .null => none
  | .bool b => some (if b then 1 else 0)
  | .num n => some n
  | .str s => pyStrToInt s
  | .arr _ => none
  | .obj _ => none

/-- `body = payload.get("Body") or payload.get("body")`, kept when a dict. -/
def mpesaBody (payload : List (String × JVal)) : Option (List (String × JVal)) :=
  match pyOr (jget payload "Body") (jget payload "body") with
  | some (.obj bkvs) => some bkvs
  | _ => none

/-- `stk_callback = body.get("stkCallback") or body.get("StkCallback")`,
kept when a dict. -/
def mpesaStk (payload : List (String × JVal)) : Option (List (String × JVal)) :=
  match mpesaBody payload with
  | some bkvs =>
    match pyOr (jget bkvs "stkCallback") (jget bkvs "StkCallback") with
    | some (.obj skvs) => some skvs
    | _ => none
  | none => none

/-- `extract_checkout_request_id` from `utils/mpesa.py`. -/
def extract_checkout_request_id (payload : List (String × JVal)) : Option JVal :=
  let fallback := pyOr (jget payload "checkout_request_id") (jget payload "CheckoutRequestID")
  match mpesaStk payload with
  | some skvs =>
    match jget skvs "CheckoutRequestID" with
    | some v => if truthy v then some v else fallback
    | none => fallback
  | none => fallback

/-- The `for item in items` loop of `extract_mpesa_receipt`: the first item
whose `Name` equals `"MpesaReceiptNumber"` returns its `Value` (even when
absent — Python `return item.get("Value")`); a non-dict list element makes
`item.get` raise `AttributeError` (`.error ()`); falling off the end
reaches the flat fallback. -/
def receiptItemsLoop (fallback : Option JVal) : List JVal → Except Unit (Option JVal)
  | [] => .ok fallback
  | x :: rest =>
    match x with
    | .obj ikvs =>
      match jget ikvs "Name" with
      | some (.str s) =>
        if s = "MpesaReceiptNumber" then .ok (jget ikvs "Value")
        else receiptItemsLoop fallback rest
      | _ => receiptItemsLoop fallback rest
    | _ => .error ()

/-- `extract_mpesa_receipt` from `utils/mpesa.py`.  The source iterates
`metadata.get("Item", [])` with no guard: a null/number/bool `Item` is not
iterable (`TypeError`), a non-empty string or dict iterates to elements
without `.get` (`AttributeError`), an empty string or dict iterates zero
times and falls through to the flat fallback; all raises are `.error ()`. -/
def extract_mpesa_receipt (payload : List (String × JVal)) : Except Unit (Option JVal) :=
  let fallback := pyOr (jget payload "receipt") (jget payload "MpesaReceiptNumber")
  match mpesaStk payload with
  | some skvs =>
    match (jget skvs "CallbackMetadata").getD (.obj []) with
    | .obj mkvs =>
      match (jget mkvs "Item").getD (.arr []) with
      | .arr items => receiptItemsLoop fallback items
      | .str s => if s = "" then .ok fallback else .error ()
      | .obj kvs2 => if kvs2.isEmpty then .ok fallback else .error ()
      | .null => .error ()
      | .bool _ => .error ()
      | .num _ => .error ()
    | _ => .ok fallback
  | none => .ok fallback

/-- The flat fallthrough of `callback_successful`: a top-level
`ResultCode`, converted inside `try/except` — unparseable values give
`False`. -/
def callbackFlat (payload : List (String × JVal)) : Except Unit Bool :=
  match jget payload "ResultCode" with
  | some v =>
    if isNullJ v then .ok false
    else
      match pyInt v with
      | some n => .ok (n = 0)
      | none => .ok false
  | none => .ok false

/-- `callback_successful` from `utils/mpesa.py` (its flat fallthrough is
`callbackFlat`).  The nested branch calls `int(result_code)` with no
`try`, so an unparseable nested `ResultCode` raises (`.error ()`); the
flat branch wraps the conversion in `try/except` and yields `False`
instead. -/
def callback_successful (payload : List (String × JVal)) : Except Unit Bool :=
  match mpesaStk payload with
  | some skvs =>
    match jget skvs "ResultCode" with
    | some v =>
      if isNullJ v then callbackFlat payload
      else
        match pyInt v with
        | some n => .ok (n = 0)
        | none => .error ()
    | none => callbackFlat payload
  | none => callbackFlat payload

/-- Modelled from the spec (helper): the top-level `ResultCode` parsed as an
integer, `none` when missing, null, or unparseable. -/
def specFlatCode (payload : List (String × JVal)) : Option Int :=
  match jget payload "ResultCode" with
  | some w => if isNullJ w then none else pyInt w
  | none => none

/-- Modelled from the spec: "the callback's parsed result code" — the nested
`Body`/`stkCallback` `ResultCode` when present (and not null), else the
top-level `ResultCode` (`specFlatCode`), parsed as an integer.  Used only
to compare `callback_successful` against the spec's words. -/
def specResultCode (payload : List (String × JVal)) : Option Int :=
  match mpesaStk payload with
  | some skvs =>
    match jget skvs "ResultCode" with
    | some v => if isNullJ v then specFlatCode payload else pyInt v
    | none => specFlatCode payload
  | none => specFlatCode payload

/-- The nested `ResultCode` (present and not null), if any — the value the
source converts with an unguarded `int(...)`. -/
def nestedResultCode (payload : List (String × JVal)) : Option JVal :=
  match mpesaStk payload with
  | some skvs =>
    match jget skvs "ResultCode" with
    | some v => if isNullJ v then none else some v
    | none => none
  | none => none

/-! ## Data model (`models.py`) -/

/-- `PaymentStatus` enum. -/
inductive PaymentStatus where
  | pending | initiated | paid | failed | refunded
deriving DecidableEq, Repr

/-- `OrderDeliveryStatus` enum. -/
inductive OrderDeliveryStatus where
  | processing | assigned | out_for_delivery | delivered | cancelled | returned
deriving DecidableEq, Repr

/-- `OrderStatus` enum. -/
inductive OrderStatus where
  | draft | placed | cancelled | completed
deriving DecidableEq, Repr

/-- `DeliveryAssignmentStatus` enum. -/
inductive DeliveryAssignmentStatus where
  | assigned | picked_up | in_transit | delivered | failed
deriving DecidableEq, Repr

/-- A `users` row; `role` is `get_role_name()` (the joined role name), the
fields a handler never reads are omitted. -/
structure User where
  id : Nat
  role : String
  is_verified : Bool
deriving DecidableEq, Repr

/-- A `locations` row (only the columns the studied handlers read). -/
structure Location where
  id : Nat
  user_id : Option Nat
deriving DecidableEq, Repr

/-- A `products` row (columns the studied handlers read).  `weight_per_unit`
is nullable with default 0. -/
structure Product where
  id : Nat
  farmer_id : Nat
  name : String
  price : ℚ
  quantity : Int
  weight_per_unit : Option ℚ
  is_available : Bool
deriving DecidableEq, Repr

/-- A `carts` row. -/
structure Cart where
  id : Nat
  buyer_id : Nat
deriving DecidableEq, Repr

/-- A `cart_items` row (surrogate key omitted; rows are identified by the
unique `(cart_id, product_id)` pair). -/
structure CartItem where
  cart_id : Nat
  product_id : Nat
  quantity : Int
deriving DecidableEq, Repr

/-- An `orders` row (timestamps omitted). -/
structure Order where
  id : Nat
  buyer_id : Nat
  farmer_id : Option Nat
  delivery_agent_id : Option Nat
  shipping_address_id : Option Nat
  total_items_amount : ℚ
  delivery_cost : ℚ
  total_price : ℚ
  payment_status : PaymentStatus
  delivery_status : OrderDeliveryStatus
  status : OrderStatus
deriving DecidableEq, Repr

/-- An `order_items` row (surrogate key omitted). -/
structure OrderItem where
  order_id : Nat
  product_id : Nat
  quantity : Int
  price_at_purchase : ℚ
  weight_per_unit : ℚ
deriving DecidableEq, Repr

/-- A `payments` row; `created_at` is the instant used by the callback's
most-recent-first ordering. -/
structure Payment where
  id : Nat
  order_id : Nat
  amount : ℚ
  transaction_id : Option String
  status : PaymentStatus
  created_at : Nat
deriving DecidableEq, Repr

/-- An `mpesa_callbacks` audit row. -/
structure MpesaCallback where
  payment_id : Option Nat
  payload : List (String × JVal)

/-- An `email_verification_tokens` row. -/
structure EmailVerificationToken where
  user_id : Nat
  token : String
  expires_at : Nat
deriving DecidableEq, Repr

/-- A `delivery_agents` profile row. -/
structure DeliveryAgent where
  user_id : Nat
  is_available : Bool
deriving DecidableEq, Repr

/-- A `delivery_assignments` row. -/
structure DeliveryAssignment where
  id : Nat
  order_id : Nat
  agent_id : Option Nat
  status : DeliveryAssignmentStatus
  assigned_at : Nat
deriving DecidableEq, Repr

/-- The relational store: one list per table touched by the studied
handlers, plus fresh-id counters for rows the handlers insert. -/
structure DB where
  users : List User
  products : List Product
  locations : List Location
  carts : List Cart
  cartItems : List CartItem
  orders : List Order
  orderItems : List OrderItem
  payments : List Payment
  mpesaCallbacks : List MpesaCallback
  emailTokens : List EmailVerificationToken
  agents : List DeliveryAgent
  assignments : List DeliveryAssignment
  nextOrderId : Nat
  nextCartId : Nat

/-- Store invariants guaranteed by the schema: primary keys are unique,
`carts.buyer_id` and `delivery_agents.user_id` and token strings are unique,
`(cart_id, product_id)` is unique on cart items, `payments.transaction_id`
is unique where set, and foreign keys from cart items and verification
tokens resolve. -/
def wf (db : DB) : Prop :=
  (db.users.map (fun u => u.id)).Nodup ∧
  (db.products.map (fun p => p.id)).Nodup ∧
  (db.locations.map (fun l => l.id)).Nodup ∧
  (db.carts.map (fun c => c.id)).Nodup ∧
  (db.carts.map (fun c => c.buyer_id)).Nodup ∧
  (db.cartItems.map (fun ci => (ci.cart_id, ci.product_id))).Nodup ∧
  (∀ ci ∈ db.cartItems, ∃ p ∈ db.products, p.id = ci.product_id) ∧
  (db.orders.map (fun o => o.id)).Nodup ∧
  (db.payments.map (fun p => p.id)).Nodup ∧
  (db.payments.filterMap (fun p => p.transaction_id)).Nodup ∧
  (db.emailTokens.map (fun t => t.token)).Nodup ∧
  (∀ t ∈ db.emailTokens, ∃ u ∈ db.users, u.id = t.user_id) ∧
  (db.agents.map (fun a => a.user_id)).Nodup ∧
  (db.assignments.map (fun a => a.id)).Nodup

instance (db : DB) : Decidable (wf db) := by
  unfold wf; infer_instance

/-! ## Delivery cost estimator (`utils/delivery.py`) -/

/-- A cart line as the estimator sees it: a resolved product and the
quantity. -/
structure CartLine where
  product : Product
  quantity : Int
deriving DecidableEq, Repr

/-- The structured quote returned by `estimate_delivery_cost`. -/
structure DeliveryQuote where
  amount : ℚ
  currency : String
  strategy : String
  weight_kg : ℚ
  destination : Option Location
deriving DecidableEq, Repr

/-- The loop accumulating `total_weight`: `item.product.weight_per_unit or 0`
falls back to zero both for NULL and for a stored 0. -/
def totalCartWeight (cart_items : List CartLine) : ℚ :=
  cart_items.foldl
    (fun acc it => acc + (it.product.weight_per_unit.getD 0) * (it.quantity : ℚ)) 0

/-- `estimate_delivery_cost` from `utils/delivery.py`. -/
def estimate_delivery_cost (cart_items : List CartLine) (destination : Option Location) :
    DeliveryQuote :=
  let total_weight := totalCartWeight cart_items
  let base_cost : ℚ := 50
  let weight_surcharge : ℚ := if total_weight > 20 then 10 else 0
  { amount := base_cost + weight_surcharge
    currency := "KES"
    strategy := "flat-rate-stub"
    weight_kg := total_weight
    destination := destination }

/-! ## Checkout (`resources/orders.py`, `OrderList.post`) -/

/-- Failure inside the per-line validation loop: a dangling product foreign
key raises `AttributeError` (caught by the surrounding `try` as a 500),
an unavailable or under-stocked product returns the 400 branch. -/
inductive LineErr where
  | productMissing
  | badStock (name : String)
deriving DecidableEq, Repr

/-- The checkout validation loop over `cart.items`: resolves each line's
product, rejects unavailable or under-stocked lines, and accumulates
`total_items_amount`. -/
def validateLines (products : List Product) : List CartItem → Except LineErr (List CartLine × ℚ)
  | [] => .ok ([], 0)
  | ci :: rest =>
    match products.find? (fun p => p.id = ci.product_id) with
    | none => .error .productMissing
    | some p =>
      if ¬ p.is_available ∨ p.quantity < ci.quantity then .error (.badStock p.name)
      else
        match validateLines products rest with
        | .error e => .error e
        | .ok (ls, t) => .ok (⟨p, ci.quantity⟩ :: ls, p.price * (ci.quantity : ℚ) + t)

/-- The checkout decrement loop: `product.quantity -= item_data["quantity"]`
per purchased line. -/
def decrementStock (products : List Product) (lines : List CartLine) : List Product :=
  lines.foldl
    (fun ps l =>
      ps.map (fun p =>
        if p.id = l.product.id then { p with quantity := p.quantity - l.quantity } else p))
    products

/-- The line items of one cart, in insertion order. -/
def cartItemsOf (db : DB) (cartId : Nat) : List CartItem :=
  db.cartItems.filter (fun ci => ci.cart_id = cartId)

/-- Response of `OrderList.post`. -/
inductive CheckoutResp where
  | created (order : Order) (quote : DeliveryQuote)
  | badRequest (msg : String)
  | serverError
deriving DecidableEq, Repr

/-- `true` exactly on the 201 branch. -/
def CheckoutResp.isCreated : CheckoutResp → Bool
  | .created _ _ => true
  | _ => false

/-- `OrderList.post` from `resources/orders.py`: create an order from the
caller's cart.  The `shipping_address_id` arrives as a JSON integer
(`none`/`0` are both falsy). -/
def orderCheckout (db : DB) (uid : Nat) (shippingAddressId : Option Int) : CheckoutResp × DB :=
  match db.carts.find? (fun c => c.buyer_id = uid) with
  | none => (.badRequest "Cart is empty", db)
  | some cart =>
    let items := cartItemsOf db cart.id
    if items.isEmpty then (.badRequest "Cart is empty", db)
    else
      match shippingAddressId with
      | none => (.badRequest "Shipping address is required", db)
      | some said =>
        if said = 0 then (.badRequest "Shipping address is required", db)
        else
          match db.locations.find? (fun l => (l.id : Int) = said) with
          | none => (.badRequest "Invalid shipping address", db)
          | some shipping_address =>
            match validateLines db.products items with
            | .error .productMissing => (.serverError, db)
            | .error (.badStock name) =>
              (.badRequest ("Product " ++ name ++ " is not available in requested quantity"), db)
            | .ok (lines, total_items_amount) =>
              let quote := estimate_delivery_cost lines (some shipping_address)
              let delivery_cost := quote.amount
              let total_price := total_items_amount + delivery_cost
              let order : Order :=
                { id := db.nextOrderId
                  buyer_id := uid
                  farmer_id := lines.head?.map (fun l => l.product.farmer_id)
                  delivery_agent_id := none
                  shipping_address_id := some said.toNat
                  total_items_amount := total_items_amount
                  delivery_cost := delivery_cost
                  total_price := total_price
                  payment_status := .pending
                  delivery_status := .processing
                  status := .placed }
              let newItems := lines.map (fun l =>
                OrderItem.mk db.nextOrderId l.product.id l.quantity l.product.price
                  (l.product.weight_per_unit.getD 0))
              (.created order quote,
                { db with
                    orders := db.orders ++ [order]
                    orderItems := db.orderItems ++ newItems
                    products := decrementStock db.products lines
                    cartItems := db.cartItems.filter (fun ci => ¬ ci.cart_id = cart.id)
                    nextOrderId := db.nextOrderId + 1 })

/-! ## Cart replace (`resources/cart.py`) -/

/-- Failure raised by `_normalise_items`; `notFound` is the `LookupError`
translated to 404, every other constructor is a `ValueError` translated to
400. -/
inductive NormErr where
  | notAList
  | badItem (idx : Nat)
  | badInts (idx : Nat)
  | notFound (pid : Int)
  | notAvail (name : String)
deriving DecidableEq, Repr

/-- A validated cart entry: the resolved product and the requested
quantity. -/
structure NormItem where
  product : Product
  quantity : Int
deriving DecidableEq, Repr

/-- The enumerated loop body of `_normalise_items`. -/
def normGo (products : List Product) : List JVal → Nat → Except NormErr (List NormItem)
  | [], _ => .ok []
  | x :: rest, i =>
    match x with
    | .obj kvs =>
      match pyInt ((jget kvs "product_id").getD .null), pyInt ((jget kvs "quantity").getD .null) with
      | some pid, some qty =>
        if qty ≤ 0 then normGo products rest (i + 1)
        else
          match products.find? (fun p => (p.id : Int) = pid) with
          | none => .error (.notFound pid)
          | some p =>
            if ¬ p.is_available ∨ p.quantity < qty then .error (.notAvail p.name)
            else
              match normGo products rest (i + 1) with
              | .error e => .error e
              | .ok l => .ok (⟨p, qty⟩ :: l)
      | _, _ => .error (.badInts i)
    | _ => .error (.badItem i)

/-- `_normalise_items` from `resources/cart.py`. -/
def normalise_items (products : List Product) (raw_items : JVal) : Except NormErr (List NormItem) :=
  match raw_items with
  | .arr xs => normGo products xs 0
  | _ => .error .notAList

/-- Response of `CartResource.put`; `serverError` is an uncaught
`IntegrityError` raised by the commit (cart.py line 119 sits outside the
try/except), surfaced by the framework as a 500 with the transaction
rolled back. -/
inductive CartPutResp where
  | ok (message : String)
  | notFound (msg : String)
  | badRequest (msg : String)
  | serverError
deriving DecidableEq, Repr

/-- The human-readable message of each `_normalise_items` failure. -/
def normErrMsg : NormErr → String
  | .notAList => "Items must be provided as a list"
  | .badItem i => "Item at position " ++ toString i ++ " is invalid"
  | .badInts i => "Product ID and quantity must be integers for item " ++ toString i
  | .notFound pid => "Product " ++ toString pid ++ " was not found"
  | .notAvail name => name ++ " is not available in the requested quantity"

/-- `CartResource.put` from `resources/cart.py`: full-replace the caller's
cart.  On any validation failure the transaction is rolled back (a cart
created for a first-time buyer included), so the store is returned
unchanged.  `_normalise_items` does not deduplicate, so a request naming
the same product twice with positive quantities reaches the insert, where
the `UniqueConstraint("cart_id", "product_id")` on cart_items makes the
commit raise `IntegrityError` — uncaught, a 500 with nothing persisted. -/
def cartPut (db : DB) (uid : Nat) (raw_items : JVal) : CartPutResp × DB :=
  let found := db.carts.find? (fun c => c.buyer_id = uid)
  let cart : Cart := found.getD ⟨db.nextCartId, uid⟩
  let db1 : DB :=
    match found with
    | some _ => db
    | none => { db with carts := db.carts ++ [cart], nextCartId := db.nextCartId + 1 }
  match normalise_items db.products raw_items with
  | .error (.notFound pid) => (.notFound (normErrMsg (.notFound pid)), db)
  | .error e => (.badRequest (normErrMsg e), db)
  | .ok normalised =>
    if (normalised.map (fun it => it.product.id)).Nodup then
      let newItems := normalised.map (fun it => CartItem.mk cart.id it.product.id it.quantity)
      let message := if normalised.isEmpty then "Cart cleared" else "Cart updated"
      (.ok message,
        { db1 with
            cartItems := db1.cartItems.filter (fun ci => ¬ ci.cart_id = cart.id) ++ newItems })
    else (.serverError, db)

/-! ## Email verification (`resources/auth.py`, `verify_email`) -/

/-- Response of the `verify_email` view; the success redirect and its JSON
fallback are both `success`. -/
inductive VerifyResp where
  | badRequest (msg : String)
  | notFound (msg : String)
  | success
deriving DecidableEq, Repr

/-- `verify_email` from `resources/auth.py`: look up the token row, reject
when absent or past expiry, else mark the user verified and delete the
consumed row. -/
def verify_email (db : DB) (token : String) (now : Nat) : VerifyResp × DB :=
  match db.emailTokens.find? (fun t => t.token = token) with
  | none => (.badRequest "Invalid verification token.", db)
  | some vt =>
    if vt.expires_at < now then (.badRequest "Verification token has expired.", db)
    else
      match db.users.find? (fun u => u.id = vt.user_id) with
      | none => (.notFound "User not found.", db)
      | some _ =>
        (.success,
          { db with
              users := db.users.map (fun u =>
                if u.id = vt.user_id then { u with is_verified := true } else u)
              emailTokens := db.emailTokens.erase vt })

/-! ## M-Pesa callback (`resources/orders.py`, `MpesaCallbackResource.post`) -/

/-- Response of `MpesaCallbackResource.post`. -/
inductive CallbackResp where
  | badRequest (msg : String)
  | ack (checkout_request_id : Option JVal) (payment_id : Option Nat)
  | serverError

/-- Does a payment row's `transaction_id` match the extracted checkout
request id?  The column holds text, so only a string payload value can
match. -/
def txMatches (tx : Option String) : JVal → Bool
  | .str s => tx = some s
  | _ => false

/-- `order_by(Payment.created_at.desc()).first()`: the first listed row of
maximal `created_at`. -/
def latestPayment (ps : List Payment) : Option Payment :=
  ps.foldl
    (fun acc p =>
      match acc with
      | none => some p
      | some q => if q.created_at < p.created_at then some p else acc)
    none

/-- The gateway receipt as stored text, when the extracted value is truthy
(`if receipt_number:`); non-string receipt values are not modelled. -/
def receiptText (r : Option JVal) : Option String :=
  match r with
  | some (.str s) => if s = "" then none else some s
  | _ => none

/-- The handler's payment lookup: when the extracted checkout-request id
is present and truthy, the most recent payment whose `transaction_id`
equals it. -/
def matchedPayment (db : DB) (payload : List (String × JVal)) : Option Payment :=
  match extract_checkout_request_id payload with
  | some v =>
    if truthy v then latestPayment (db.payments.filter (fun p => txMatches p.transaction_id v))
    else none
  | none => none

/-- `MpesaCallbackResource.post` from `resources/orders.py`.  The audit row
is added to the session before the status transitions; when the nested
result-code conversion or the receipt extraction raises inside the try,
the whole transaction — audit row included — is rolled back into the 500
branch. -/
def mpesaCallbackPost (db : DB) (payload : List (String × JVal)) : CallbackResp × DB :=
  if payload.isEmpty then (.badRequest "Invalid callback payload", db)
  else
    let cid := extract_checkout_request_id payload
    let payment := matchedPayment db payload
    let payment_id := payment.map (fun p => p.id)
    let record : MpesaCallback := ⟨payment_id, payload⟩
    match payment with
    | none => (.ack cid payment_id, { db with mpesaCallbacks := db.mpesaCallbacks ++ [record] })
    | some pay =>
      match callback_successful payload with
      | .error _ => (.serverError, db)
      | .ok true =>
        match extract_mpesa_receipt payload with
        | .error _ => (.serverError, db)
        | .ok receipt_number =>
          let newTx :=
            match receiptText receipt_number with
            | some s => some s
            | none => pay.transaction_id
          (.ack cid payment_id,
            { db with
                mpesaCallbacks := db.mpesaCallbacks ++ [record]
                payments := db.payments.map (fun p =>
                  if p.id = pay.id then { p with status := .paid, transaction_id := newTx } else p)
                orders := db.orders.map (fun o =>
                  if o.id = pay.order_id then { o with payment_status := .paid } else o) })
      | .ok false =>
        (.ack cid payment_id,
          { db with
              mpesaCallbacks := db.mpesaCallbacks ++ [record]
              payments := db.payments.map (fun p =>
                if p.id = pay.id then { p with status := .failed } else p)
              orders := db.orders.map (fun o =>
                if o.id = pay.order_id then { o with payment_status := .failed } else o) })

/-! ## Delivery status update (`resources/orders.py`,
`OrderStatusUpdateResource.patch`) -/

/-- `OrderDeliveryStatus(requested_status)` after the membership check on
the enum's values. -/
def parseDeliveryStatus (s : String) : Option OrderDeliveryStatus :=
  if s = "processing" then some .processing
  else if s = "assigned" then some .assigned
  else if s = "out_for_delivery" then some .out_for_delivery
  else if s = "delivered" then some .delivered
  else if s = "cancelled" then some .cancelled
  else if s = "returned" then some .returned
  else none

/-- The fixed `STATUS_TO_ASSIGNMENT_STATUS` table; `processing` has no
entry. -/
def statusToAssignmentStatus : OrderDeliveryStatus → Option DeliveryAssignmentStatus
  | .assigned => some .assigned
  | .out_for_delivery => some .in_transit
  | .delivered => some .delivered
  | .cancelled => some .failed
  | .returned => some .failed
  | .processing => none

/-- `order_by(DeliveryAssignment.assigned_at.desc()).first()`. -/
def latestAssignment (as : List DeliveryAssignment) : Option DeliveryAssignment :=
  as.foldl
    (fun acc a =>
      match acc with
      | none => some a
      | some b => if b.assigned_at < a.assigned_at then some a else acc)
    none

/-- `_ensure_delivery_agent_profile` followed by `profile.is_available =
True`: reuse the existing profile row or create one, then mark it
available. -/
def ensureAvailable (agents : List DeliveryAgent) (aid : Nat) : List DeliveryAgent :=
  match agents.find? (fun a => a.user_id = aid) with
  | some _ => agents.map (fun a => if a.user_id = aid then { a with is_available := true } else a)
  | none => agents ++ [⟨aid, true⟩]

/-- Response of `OrderStatusUpdateResource.patch`. -/
inductive StatusResp where
  | ok
  | badRequest (msg : String)
  | forbidden (msg : String)
  | notFound
deriving DecidableEq, Repr

/-- The handler's in-place status write: `order.delivery_status =
OrderDeliveryStatus(requested_status)` as seen by subsequent queries of the
same transaction. -/
def ordersWithStatus (db : DB) (orderId : Nat) (newStatus : OrderDeliveryStatus) : List Order :=
  db.orders.map (fun o =>
    if o.id = orderId then { o with delivery_status := newStatus } else o)

/-- The handler's assignment mirror: the most recent assignment of the
order takes the mapped status, when the mapping has an entry. -/
def assignmentsWithStatus (db : DB) (orderId : Nat) (newStatus : OrderDeliveryStatus) :
    List DeliveryAssignment :=
  match latestAssignment (db.assignments.filter (fun a => a.order_id = orderId)),
      statusToAssignmentStatus newStatus with
  | some a, some m =>
    db.assignments.map (fun x => if x.id = a.id then { x with status := m } else x)
  | _, _ => db.assignments

/-- `Order.query.filter(... agent ..., ... != DELIVERED).count()` over the
post-update orders table (the session flushes the pending change before
counting). -/
def remainingNonDelivered (orders : List Order) (aid : Nat) : Nat :=
  (orders.filter (fun o =>
    o.delivery_agent_id = some aid ∧ o.delivery_status ≠ .delivered)).length

/-- `OrderStatusUpdateResource.patch` from `resources/orders.py`: update an
order's delivery status, mirror it onto the latest assignment, and
auto-release the agent when no non-delivered order remains. -/
def orderStatusPatch (db : DB) (orderId : Nat) (uid : Nat) (requested : Option String) :
    StatusResp × DB :=
  match db.orders.find? (fun o => o.id = orderId) with
  | none => (.notFound, db)
  | some order =>
    match requested with
    | none => (.badRequest "delivery_status is required", db)
    | some reqs =>
      if reqs = "" then (.badRequest "delivery_status is required", db)
      else
        match parseDeliveryStatus reqs with
        | none => (.badRequest "Invalid delivery status", db)
        | some newStatus =>
          let role := ((db.users.find? (fun u => u.id = uid)).map (fun u => u.role)).getD ""
          if role = "delivery_agent" ∧ order.delivery_agent_id ≠ some uid then
            (.forbidden "Access denied", db)
          else if ¬ (role = "delivery_agent" ∨ role = "superadmin") then
            (.forbidden "Permission denied", db)
          else
            let db1 := { db with
              orders := ordersWithStatus db orderId newStatus
              assignments := assignmentsWithStatus db orderId newStatus }
            if newStatus = .delivered then
              match order.delivery_agent_id with
              | some aid =>
                match db.users.find? (fun u => u.id = aid) with
                | some _ =>
                  if remainingNonDelivered (ordersWithStatus db orderId newStatus) aid = 0 then
                    (.ok, { db1 with agents := ensureAvailable db1.agents aid })
                  else (.ok, db1)
                | none => (.ok, db1)
              | none => (.ok, db1)
            else (.ok, db1)

/-! ## User deletion (`app.py`, `delete_user`) -/

/-- Response of `delete_user`; `serverError` is the uncaught
`IntegrityError` raised by the flush. -/
inductive DeleteResp where
  | ok
  | notFound
  | serverError
deriving DecidableEq, Repr

/-- Does the user own rows behind NOT NULL foreign keys?  The `User` model
declares plain relationships (no delete cascade, no passive deletes) to
products (`farmer_id`), the cart (`buyer_id`), orders as buyer
(`buyer_id`), verification tokens (`user_id`) and the agent profile
(`user_id`); on `session.delete(user)` the ORM nulls those columns, all of
which are NOT NULL, so the flush raises. -/
def userHasRestrictingRows (db : DB) (id : Nat) : Bool :=
  db.products.any (fun p => p.farmer_id = id) ||
  db.carts.any (fun c => c.buyer_id = id) ||
  db.orders.any (fun o => o.buyer_id = id) ||
  db.emailTokens.any (fun t => t.user_id = id) ||
  db.agents.any (fun a => a.user_id = id)

/-- `delete_user` from `app.py` (the final generation's route
`DELETE /users/<id>`): fetch-or-404, then hard-delete the user row.  When
the user owns rows behind NOT NULL foreign keys the flush raises an
uncaught `IntegrityError` — a 500 with the row still in place; otherwise
the row is removed and the nullable references to it (location owner,
order farmer and delivery agent, assignment agent) are nulled out by the
ORM. -/
def delete_user (db : DB) (id : Nat) : DeleteResp × DB :=
  match db.users.find? (fun u => u.id = id) with
  | none => (.notFound, db)
  | some u =>
    if userHasRestrictingRows db id then (.serverError, db)
    else
      (.ok,
        { db with
            users := db.users.erase u
            locations := db.locations.map (fun l =>
              if l.user_id = some id then { l with user_id := none } else l)
            orders := db.orders.map (fun o =>
              { o with
                  farmer_id := if o.farmer_id = some id then none else o.farmer_id
                  delivery_agent_id :=
                    if o.delivery_agent_id = some id then none else o.delivery_agent_id })
            assignments := db.assignments.map (fun a =>
              if a.agent_id = some id then { a with agent_id := none } else a) })

/-! ## General helper lemmas -/

theorem foldl_add_map_sum {α : Type} (f : α → ℚ) (l : List α) (a : ℚ) :
    l.foldl (fun acc x => acc + f x) a = a + (l.map f).sum := by
  induction l generalizing a with
  | nil => simp
  | cons x t ih => simp [List.foldl_cons, ih, add_assoc]

theorem totalCartWeight_eq_sum (cart_items : List CartLine) :
    totalCartWeight cart_items
      = (cart_items.map (fun it => (it.product.weight_per_unit.getD 0) * (it.quantity : ℚ))).sum := by
  unfold totalCartWeight
  simpa using foldl_add_map_sum
    (fun it => (it.product.weight_per_unit.getD 0) * (it.quantity : ℚ)) cart_items 0

/-! ## C5 — delivery cost estimator -/

/-- C5: `estimate_delivery_cost` computes total weight as the sum of
(weight-per-unit, 0 when absent) × quantity over all line items, returns
amount exactly 50 when total weight is at most 20 and exactly 60 when it
exceeds 20, and currency is always `"KES"`.  The embedded function is pure,
so the no-side-effects conjunct is carried by the model itself. -/
theorem estimate_delivery_cost_spec (cart_items : List CartLine) (destination : Option Location) :
    (estimate_delivery_cost cart_items destination).weight_kg
        = (cart_items.map (fun it => (it.product.weight_per_unit.getD 0) * (it.quantity : ℚ))).sum
    ∧ ((estimate_delivery_cost cart_items destination).weight_kg ≤ 20 →
        (estimate_delivery_cost cart_items destination).amount = 50)
    ∧ (20 < (estimate_delivery_cost cart_items destination).weight_kg →
        (estimate_delivery_cost cart_items destination).amount = 60)
    ∧ (estimate_delivery_cost cart_items destination).currency = "KES" := by
  refine ⟨totalCartWeight_eq_sum cart_items, ?_, ?_, rfl⟩
  · intro h
    have hnot : ¬ totalCartWeight cart_items > 20 := not_lt.mpr h
    simp [estimate_delivery_cost, hnot]
  · intro h
    have hgt : totalCartWeight cart_items > 20 := h
    simp [estimate_delivery_cost, hgt]
    norm_num

/-- A light product and two line items used by concrete witnesses. -/
def prodLight : Product := ⟨1, 10, "Apples", 10, 5, some 2, true⟩

/-- A heavy product used by concrete witnesses. -/
def prodHeavy : Product := ⟨2, 10, "Maize", 7, 50, some 9, true⟩

/-- C5 witness: the theorem applied at a one-line light cart (weight 6,
amount 50) and a heavy cart (weight 27, amount 60). -/
theorem estimate_delivery_cost_spec_witness :
    ((estimate_delivery_cost [⟨prodLight, 3⟩] none).weight_kg ≤ 20
      ∧ (estimate_delivery_cost [⟨prodLight, 3⟩] none).amount = 50)
    ∧ (20 < (estimate_delivery_cost [⟨prodHeavy, 3⟩] none).weight_kg
      ∧ (estimate_delivery_cost [⟨prodHeavy, 3⟩] none).amount = 60) :=
  ⟨⟨by norm_num [estimate_delivery_cost, totalCartWeight, prodLight],
    (estimate_delivery_cost_spec [⟨prodLight, 3⟩] none).2.1
      (by norm_num [estimate_delivery_cost, totalCartWeight, prodLight])⟩,
   ⟨by norm_num [estimate_delivery_cost, totalCartWeight, prodHeavy],
    (estimate_delivery_cost_spec [⟨prodHeavy, 3⟩] none).2.2.1
      (by norm_num [estimate_delivery_cost, totalCartWeight, prodHeavy])⟩⟩

/-! ## C4 — callback success parser -/

/-- The nested malformed payload: `Body.stkCallback.ResultCode` is the
non-numeric string `"abc"`. -/
def payloadNestedBad : List (String × JVal) :=
  [("Body", .obj [("stkCallback", .obj [("ResultCode", .str "abc")])])]

/-- C4 counterexample: on a payload whose nested `ResultCode` is not
integer-parseable, `callback_successful` raises (the unguarded
`int(result_code)` in the nested branch) instead of returning false, so
the parser is not total as claimed. -/
theorem callback_successful_nested_raises :
    callback_successful payloadNestedBad = .error ()
    ∧ callback_successful payloadNestedBad ≠ .ok false := by
  refine ⟨rfl, ?_⟩
  intro h
  have h0 : callback_successful payloadNestedBad = .error () := rfl
  rw [h0] at h
  exact Except.noConfusion h

/-- C4 (amended): `callback_successful` returns true exactly when the parsed
result code equals 0, and it is total — returning false on a missing or
unparseable code — except when a non-integer-parseable `ResultCode` sits in
the nested `Body`/`stkCallback` shape, where the unguarded `int(...)`
raises. -/
theorem callback_successful_spec (payload : List (String × JVal)) :
    (callback_successful payload = .ok true ↔ specResultCode payload = some 0)
    ∧ (∀ v, nestedResultCode payload = some v → pyInt v = none →
        callback_successful payload = .error ())
    ∧ (nestedResultCode payload = none → ∃ b, callback_successful payload = .ok b) := by
  have hflat : (callbackFlat payload = .ok true ↔ specFlatCode payload = some 0)
      ∧ ∃ b, callbackFlat payload = .ok b := by
    cases hg : jget payload "ResultCode" with
    | none => simp [callbackFlat, specFlatCode, hg]
    | some w =>
      by_cases hn : isNullJ w
      · simp [callbackFlat, specFlatCode, hg, hn]
      · cases hpi : pyInt w with
        | none => simp [callbackFlat, specFlatCode, hg, hn, hpi]
        | some n => simp [callbackFlat, specFlatCode, hg, hn, hpi]
  refine ⟨?_, ?_, ?_⟩
  · cases hstk : mpesaStk payload with
    | none => simpa [callback_successful, specResultCode, hstk] using hflat.1
    | some skvs =>
      cases hrc : jget skvs "ResultCode" with
      | none => simpa [callback_successful, specResultCode, hstk, hrc] using hflat.1
      | some v =>
        by_cases hn : isNullJ v
        · simpa [callback_successful, specResultCode, hstk, hrc, hn] using hflat.1
        · cases hpi : pyInt v with
          | none => simp [callback_successful, specResultCode, hstk, hrc, hn, hpi]
          | some n => simp [callback_successful, specResultCode, hstk, hrc, hn, hpi]
  · intro v hv hpv
    cases hstk : mpesaStk payload with
    | none => simp [nestedResultCode, hstk] at hv
    | some skvs =>
      cases hrc : jget skvs "ResultCode" with
      | none => simp [nestedResultCode, hstk, hrc] at hv
      | some w =>
        by_cases hn : isNullJ w
        · simp [nestedResultCode, hstk, hrc, hn] at hv
        · simp only [nestedResultCode, hstk, hrc, hn] at hv
          have hwv : w = v := by simpa [hn] using hv
          subst hwv
          simp [callback_successful, hstk, hrc, hn, hpv]
  · intro h
    cases hstk : mpesaStk payload with
    | none => simpa [callback_successful, hstk] using hflat.2
    | some skvs =>
      cases hrc : jget skvs "ResultCode" with
      | none => simpa [callback_successful, hstk, hrc] using hflat.2
      | some w =>
        by_cases hn : isNullJ w
        · simpa [callback_successful, hstk, hrc, hn] using hflat.2
        · exfalso
          simp [nestedResultCode, hstk, hrc, hn] at h


/-- C4 witness: the theorem applied at a flat payload with `ResultCode`
`"abc"` — total there, false — and at a nested zero code — true. -/
theorem callback_successful_spec_witness :
    (∃ b, callback_successful [("ResultCode", .str "abc")] = .ok b)
    ∧ (callback_successful [("Body", .obj [("stkCallback", .obj [("ResultCode", .num 0)])])]
        = .ok true) :=
  ⟨(callback_successful_spec [("ResultCode", .str "abc")]).2.2 rfl,
   ((callback_successful_spec
      [("Body", .obj [("stkCallback", .obj [("ResultCode", .num 0)])])]).1).mpr rfl⟩

/-! ## C6 — email verification expiry -/

/-- C6: a token-string match whose stored expiry has passed is rejected with
InvalidInput (400) and nothing changes; a non-expired match marks the owning
user verified and deletes the consumed token row. -/
theorem verify_email_spec (db : DB) (token : String) (now : Nat)
    (vt : EmailVerificationToken) (hwf : wf db)
    (hfind : db.emailTokens.find? (fun t => t.token = token) = some vt) :
    (vt.expires_at < now →
      verify_email db token now = (.badRequest "Verification token has expired.", db))
    ∧ (¬ vt.expires_at < now →
      (verify_email db token now).1 = .success
      ∧ (∀ u ∈ (verify_email db token now).2.users, u.id = vt.user_id → u.is_verified = true)
      ∧ (∃ u ∈ (verify_email db token now).2.users, u.id = vt.user_id)
      ∧ vt ∉ (verify_email db token now).2.emailTokens
      ∧ (verify_email db token now).2.products = db.products
      ∧ (verify_email db token now).2.orders = db.orders
      ∧ (verify_email db token now).2.carts = db.carts
      ∧ (verify_email db token now).2.cartItems = db.cartItems) := by
  have hvt_mem : vt ∈ db.emailTokens := List.mem_of_find?_eq_some hfind
  obtain ⟨uref, huref_mem, huref_id⟩ := hwf.2.2.2.2.2.2.2.2.2.2.2.1 vt hvt_mem
  have husers : (db.users.find? (fun u => u.id = vt.user_id)).isSome := by
    rw [List.find?_isSome]
    exact ⟨uref, huref_mem, by simp [huref_id]⟩
  obtain ⟨ufound, hufound⟩ := Option.isSome_iff_exists.mp husers
  have hufound_mem : ufound ∈ db.users := List.mem_of_find?_eq_some hufound
  have hufound_id : ufound.id = vt.user_id := by
    have := List.find?_some hufound
    simpa using this
  constructor
  · intro hexp
    simp [verify_email, hfind, hexp]
  · intro hexp
    simp only [verify_email, hfind, hexp, if_false, hufound]
    refine ⟨trivial, ?_, ?_, ?_, trivial, trivial, trivial, trivial⟩
    · intro u hu hid
      rcases List.mem_map.mp hu with ⟨w, hw_mem, hw_eq⟩
      by_cases h : w.id = vt.user_id
      · rw [← hw_eq]; simp [h]
      · exfalso
        rw [← hw_eq] at hid
        simp [h] at hid
    · refine ⟨{ ufound with is_verified := true }, ?_, ?_⟩
      · have := List.mem_map_of_mem
          (fun u => if u.id = vt.user_id then { u with is_verified := true } else u) hufound_mem
        simpa [hufound_id] using this
      · simpa using hufound_id
    · have hnodup : db.emailTokens.Nodup :=
        List.Nodup.of_map _ hwf.2.2.2.2.2.2.2.2.2.2.1
      intro hmem
      rcases (List.Nodup.mem_erase_iff hnodup).mp hmem with ⟨hne, _⟩
      exact hne rfl

/-- A store holding one unverified user and one token expiring at instant
10, used by concrete witnesses. -/
def dbVerify : DB :=
  ⟨[⟨3, "buyer", false⟩], [], [], [], [], [], [], [], [], [⟨3, "tok", 10⟩], [], [], 1, 1⟩

/-- C6 witness: the theorem applied at `dbVerify` with the clock at 5
(token valid): verification succeeds, the user ends verified and the token
row is gone. -/
theorem verify_email_spec_witness :
    (verify_email dbVerify "tok" 5).1 = .success
    ∧ (∀ u ∈ (verify_email dbVerify "tok" 5).2.users, u.id = 3 → u.is_verified = true)
    ∧ (∃ u ∈ (verify_email dbVerify "tok" 5).2.users, u.id = 3)
    ∧ (⟨3, "tok", 10⟩ : EmailVerificationToken) ∉ (verify_email dbVerify "tok" 5).2.emailTokens := by
  have h := (verify_email_spec dbVerify "tok" 5 ⟨3, "tok", 10⟩ (by decide) (by decide)).2
    (by decide)
  exact ⟨h.1, h.2.1, h.2.2.1, h.2.2.2.1⟩

/-! ## C9 — user hard-deletion -/

/-- A store holding a single registered user, id 7. -/
def dbOneUser : DB := ⟨[⟨7, "buyer", true⟩], [], [], [], [], [], [], [], [], [], [], [], 1, 1⟩

/-- C9 counterexample: the final application's `delete_user` handler
(registered at `DELETE /users/<id>` in `app.py`) hard-deletes the matching
user row — after the call the store holds no users at all, so it is not
the case that every user row persists under every exposed operation. -/
theorem delete_user_removes_row :
    (delete_user dbOneUser 7).1 = .ok ∧ (delete_user dbOneUser 7).2.users = [] :=
  ⟨rfl, rfl⟩

/-- C9 (amended): the final generation still exposes `DELETE /users/<id>`
(`delete_user` in `app.py`).  For an existing user owning no rows behind
NOT NULL foreign keys (no products, cart, orders as buyer, verification
tokens, or agent profile) the handler answers 200 and removes that user's
row from the store, so user rows are not preserved by this operation; for
a user owning such rows the flush raises, the handler answers 500 and the
whole store — the user row included — is unchanged. -/
theorem delete_user_spec (db : DB) (i : Nat) (u : User) (hwf : wf db)
    (hfind : db.users.find? (fun x => x.id = i) = some u) :
    (userHasRestrictingRows db i = false →
      (delete_user db i).1 = .ok ∧ ∀ v ∈ (delete_user db i).2.users, v.id ≠ i)
    ∧ (userHasRestrictingRows db i = true →
      delete_user db i = (.serverError, db)) := by
  have hmem : u ∈ db.users := List.mem_of_find?_eq_some hfind
  have hid : u.id = i := by simpa using List.find?_some hfind
  have hnodup_ids : (db.users.map (fun x => x.id)).Nodup := hwf.1
  have hnodup : db.users.Nodup := List.Nodup.of_map _ hnodup_ids
  constructor
  · intro hrr
    constructor
    · simp [delete_user, hfind, hrr]
    · intro v hv
      simp only [delete_user, hfind, hrr, Bool.false_eq_true, if_false, reduceIte] at hv
      rcases (List.Nodup.mem_erase_iff hnodup).mp hv with ⟨hne, hvmem⟩
      intro hvi
      exact hne (List.inj_on_of_nodup_map hnodup_ids hvmem hmem (by rw [hvi, hid]))
  · intro hrr
    simp [delete_user, hfind, hrr]

/-- C9 witness: the amended theorem applied at the one-user store, whose
user owns no restricting rows — the row is gone afterwards. -/
theorem delete_user_spec_witness :
    (delete_user dbOneUser 7).1 = .ok ∧ ∀ v ∈ (delete_user dbOneUser 7).2.users, v.id ≠ 7 :=
  (delete_user_spec dbOneUser 7 ⟨7, "buyer", true⟩ (by decide) (by decide)).1 rfl

/-! ## C8 — cart replace -/

/-- A store with one available product (`Apples`, stock 1) and buyer 7's
cart. -/
def dbCartCE : DB :=
  ⟨[], [⟨1, 10, "Apples", 10, 1, some 1, true⟩], [], [⟨1, 7⟩], [], [], [], [], [], [], [], [],
   1, 5⟩

/-- A replace body whose first item over-asks stock (quantity 5 of 1) and
whose second item references product 99, which does not exist. -/
def rawMixed : JVal :=
  .arr [.obj [("product_id", .num 1), ("quantity", .num 5)],
        .obj [("product_id", .num 99), ("quantity", .num 1)]]

/-- C8 counterexample: with a nonexistent product in the request the claim
requires NotFound, but validation is sequential and the earlier
insufficient-stock item wins, so the operation fails with InvalidInput
(400) instead. -/
theorem cartPut_mixed_error : 
    (cartPut dbCartCE 7 rawMixed).1
      = .badRequest "Apples is not available in the requested quantity"
    ∧ ∀ msg, (cartPut dbCartCE 7 rawMixed).1 ≠ .notFound msg := by
  have h0 : (cartPut dbCartCE 7 rawMixed).1
      = .badRequest "Apples is not available in the requested quantity" := rfl
  refine ⟨h0, ?_⟩
  intro msg h
  rw [h0] at h
  exact CartPutResp.noConfusion h

theorem filter_of_filter_not (l : List CartItem) (k : Nat) :
    (l.filter (fun ci => ¬ ci.cart_id = k)).filter (fun ci => ci.cart_id = k) = [] := by
  induction l with
  | nil => rfl
  | cons x t ih =>
    by_cases h : x.cart_id = k
    · simp [List.filter_cons, h, ih]
    · simp [List.filter_cons, h, ih]

/-- C8 (amended): entries with quantity ≤ 0 are silently skipped; items are
validated left to right and the first failing item decides the outcome —
NotFound when its product id matches no product, InvalidInput when the item
is malformed, unavailable or under-stocked — with the cart's prior line
items (and the whole store) unchanged on failure; on success, when the
validated set repeats no product, the prior line items are fully replaced
by the validated set and an empty resulting set is reported as "Cart
cleared"; a validated set that names the same product twice instead makes
the commit violate the cart-items uniqueness constraint: a 500 with the
store unchanged. -/
theorem cartPut_spec (db : DB) (uid : Nat) (raw : JVal) :
    (∀ e, normalise_items db.products raw = .error e →
        (cartPut db uid raw).2 = db
        ∧ (∀ pid, e = .notFound pid →
            (cartPut db uid raw).1 = .notFound (normErrMsg e))
        ∧ ((∀ pid, e ≠ .notFound pid) →
            (cartPut db uid raw).1 = .badRequest (normErrMsg e)))
    ∧ (∀ ns, normalise_items db.products raw = .ok ns →
        (ns.map (fun it => it.product.id)).Nodup →
        ∃ cart : Cart, cart.buyer_id = uid
          ∧ cartItemsOf (cartPut db uid raw).2 cart.id
              = ns.map (fun it => CartItem.mk cart.id it.product.id it.quantity)
          ∧ (cartPut db uid raw).1
              = .ok (if ns.isEmpty then "Cart cleared" else "Cart updated"))
    ∧ (∀ ns, normalise_items db.products raw = .ok ns →
        ¬ (ns.map (fun it => it.product.id)).Nodup →
        cartPut db uid raw = (.serverError, db))
    ∧ (∀ ps kvs rest i pid q,
        pyInt ((jget kvs "product_id").getD .null) = some pid →
        pyInt ((jget kvs "quantity").getD .null) = some q → q ≤ 0 →
        normGo ps (.obj kvs :: rest) i = normGo ps rest (i + 1)) := by
  refine ⟨?_, ?_, ?_, ?_⟩
  · intro e hnorm
    rcases e with _ | i | i | pid | name
    · refine ⟨by simp [cartPut, hnorm], ?_, ?_⟩
      · intro pid h; exact NormErr.noConfusion h
      · intro _; simp [cartPut, hnorm]
    · refine ⟨by simp [cartPut, hnorm], ?_, ?_⟩
      · intro pid h; exact NormErr.noConfusion h
      · intro _; simp [cartPut, hnorm]
    · refine ⟨by simp [cartPut, hnorm], ?_, ?_⟩
      · intro pid h; exact NormErr.noConfusion h
      · intro _; simp [cartPut, hnorm]
    · refine ⟨by simp [cartPut, hnorm], ?_, ?_⟩
      · intro pid2 h; simp [cartPut, hnorm]
      · intro hcontra; exact absurd rfl (hcontra pid)
    · refine ⟨by simp [cartPut, hnorm], ?_, ?_⟩
      · intro pid h; exact NormErr.noConfusion h
      · intro _; simp [cartPut, hnorm]
  · intro ns hnorm hnodup
    cases hfound : db.carts.find? (fun c => c.buyer_id = uid) with
    | some cart =>
      have hbuyer : cart.buyer_id = uid := by simpa using List.find?_some hfound
      refine ⟨cart, hbuyer, ?_, by simp [cartPut, hfound, hnorm, hnodup]⟩
      simp only [cartPut, hfound, hnorm, cartItemsOf, Option.getD_some, hnodup, if_true,
        reduceIte]
      rw [List.filter_append, filter_of_filter_not, List.nil_append]
      apply List.filter_eq_self.mpr
      intro a ha
      rcases List.mem_map.mp ha with ⟨it, _, rfl⟩
      simp
    | none =>
      refine ⟨⟨db.nextCartId, uid⟩, rfl, ?_, by simp [cartPut, hfound, hnorm, hnodup]⟩
      simp only [cartPut, hfound, hnorm, cartItemsOf, Option.getD_none, hnodup, if_true,
        reduceIte]
      rw [List.filter_append, filter_of_filter_not, List.nil_append]
      apply List.filter_eq_self.mpr
      intro a ha
      rcases List.mem_map.mp ha with ⟨it, _, rfl⟩
      simp
  · intro ns hnorm hdup
    simp [cartPut, hnorm, hdup]
  · intro ps kvs rest i pid q hpid hq hq0
    simp [normGo, hpid, hq, hq0]

/-- A replace body with one valid line (product 1, quantity 1) and one
quantity-0 line referencing the nonexistent product 99 — the zero-quantity
entry is skipped before any product lookup. -/
def rawOneGood : JVal :=
  .arr [.obj [("product_id", .num 1), ("quantity", .num 1)],
        .obj [("product_id", .num 99), ("quantity", .num 0)]]

/-- C8 witness: the amended theorem applied at `dbCartCE` with `rawOneGood`:
the replace succeeds, the quantity-0 entry is dropped (despite referencing
a nonexistent product), and the cart holds exactly the validated line. -/
theorem cartPut_spec_witness :
    ∃ cart : Cart, cart.buyer_id = 7
      ∧ cartItemsOf (cartPut dbCartCE 7 rawOneGood).2 cart.id
          = [⟨cart.id, 1, 1⟩]
      ∧ (cartPut dbCartCE 7 rawOneGood).1 = .ok "Cart updated" := by
  have h := (cartPut_spec dbCartCE 7 rawOneGood).2.1
    [⟨⟨1, 10, "Apples", 10, 1, some 1, true⟩, 1⟩] rfl (by decide)
  rcases h with ⟨cart, hb, hitems, hmsg⟩
  exact ⟨cart, hb, by simpa using hitems, by simpa using hmsg⟩

/-! ## C3 — M-Pesa callback reconciliation -/

/-- A store with one order (id 1) awaiting payment and one initiated
payment whose `transaction_id` is `"CR1"`. -/
def dbCallback : DB :=
  ⟨[], [], [], [], [],
   [⟨1, 1, none, none, none, 0, 0, 100, .initiated, .processing, .placed⟩], [],
   [⟨1, 1, 100, some "CR1", .initiated, 0⟩], [], [], [], [], 2, 1⟩

/-- A callback that matches payment `"CR1"` but whose nested `ResultCode`
is the unparseable string `"oops"`. -/
def payloadMatchedBad : List (String × JVal) :=
  [("Body", .obj [("stkCallback",
      .obj [("CheckoutRequestID", .str "CR1"), ("ResultCode", .str "oops")])])]

/-- C3 counterexample: a non-empty callback that matches a payment but whose
nested result code fails integer parsing makes the handler raise inside its
try-block; the transaction rolls back, so contrary to the claim no
`MpesaCallback` audit row is recorded (and a 500 is returned). -/
theorem mpesa_callback_rollback_no_audit :
    (mpesaCallbackPost dbCallback payloadMatchedBad).1 = .serverError
    ∧ (mpesaCallbackPost dbCallback payloadMatchedBad).2.mpesaCallbacks = []
    ∧ (mpesaCallbackPost dbCallback payloadMatchedBad).2 = dbCallback :=
  ⟨rfl, rfl, rfl⟩

/-- C3 (amended): for every non-empty callback payload — when no payment
matches the extracted checkout-request id, only the audit row is appended
(payments and orders untouched); when a payment matches, the parsed result
code is 0 and the receipt extraction does not raise, payment and parent
order become paid, a present gateway receipt replaces the transaction id,
and the audit row is appended; when matched with a non-zero code, both
become failed and the audit row is appended — except that a matched
callback whose nested result code fails integer parsing, or whose
successful callback carries a malformed `CallbackMetadata.Item`, raises
inside the handler's try, answering 500 and rolling everything back, the
audit row included. -/
theorem mpesa_callback_spec (db : DB) (payload : List (String × JVal))
    (hne : payload.isEmpty = false) :
    (matchedPayment db payload = none →
      mpesaCallbackPost db payload
        = (.ack (extract_checkout_request_id payload) none,
           { db with mpesaCallbacks := db.mpesaCallbacks ++ [⟨none, payload⟩] }))
    ∧ (∀ pay, matchedPayment db payload = some pay →
        (∀ rv, callback_successful payload = .ok true →
          extract_mpesa_receipt payload = .ok rv →
          (mpesaCallbackPost db payload).1
              = .ack (extract_checkout_request_id payload) (some pay.id)
          ∧ (mpesaCallbackPost db payload).2.mpesaCallbacks
              = db.mpesaCallbacks ++ [⟨some pay.id, payload⟩]
          ∧ (∀ p ∈ (mpesaCallbackPost db payload).2.payments, p.id = pay.id →
              p.status = .paid
              ∧ ∀ r, receiptText rv = some r → p.transaction_id = some r)
          ∧ (∀ o ∈ (mpesaCallbackPost db payload).2.orders, o.id = pay.order_id →
              o.payment_status = .paid)
          ∧ (mpesaCallbackPost db payload).2.carts = db.carts
          ∧ (mpesaCallbackPost db payload).2.products = db.products)
        ∧ (callback_successful payload = .ok true →
          extract_mpesa_receipt payload = .error () →
          mpesaCallbackPost db payload = (.serverError, db))
        ∧ (callback_successful payload = .ok false →
          (mpesaCallbackPost db payload).1
              = .ack (extract_checkout_request_id payload) (some pay.id)
          ∧ (mpesaCallbackPost db payload).2.mpesaCallbacks
              = db.mpesaCallbacks ++ [⟨some pay.id, payload⟩]
          ∧ (∀ p ∈ (mpesaCallbackPost db payload).2.payments, p.id = pay.id →
              p.status = .failed)
          ∧ (∀ o ∈ (mpesaCallbackPost db payload).2.orders, o.id = pay.order_id →
              o.payment_status = .failed))
        ∧ (callback_successful payload = .error () →
          mpesaCallbackPost db payload = (.serverError, db))) := by
  constructor
  · intro hm
    simp [mpesaCallbackPost, hne, hm]
  · intro pay hm
    refine ⟨?_, ?_, ?_, ?_⟩
    · intro rv hcb hrec
      simp only [mpesaCallbackPost, hne, Bool.false_eq_true, if_false, hm, hcb, hrec]
      refine ⟨rfl, rfl, ?_, ?_, trivial, trivial⟩
      · intro p hp hid
        rcases List.mem_map.mp hp with ⟨w, hw_mem, rfl⟩
        by_cases h : w.id = pay.id
        · constructor
          · simp [h]
          · intro r hr
            simp only [h, if_true, if_pos]
            simp [hr]
        · exfalso
          simp [h] at hid
      · intro o ho hid
        rcases List.mem_map.mp ho with ⟨w, hw_mem, rfl⟩
        by_cases h : w.id = pay.order_id
        · simp [h]
        · exfalso
          simp [h] at hid
    · intro hcb hrec
      simp [mpesaCallbackPost, hne, hm, hcb, hrec]
    · intro hcb
      simp only [mpesaCallbackPost, hne, Bool.false_eq_true, if_false, hm, hcb]
      refine ⟨rfl, rfl, ?_, ?_⟩
      · intro p hp hid
        rcases List.mem_map.mp hp with ⟨w, hw_mem, rfl⟩
        by_cases h : w.id = pay.id
        · simp [h]
        · exfalso
          simp [h] at hid
      · intro o ho hid
        rcases List.mem_map.mp ho with ⟨w, hw_mem, rfl⟩
        by_cases h : w.id = pay.order_id
        · simp [h]
        · exfalso
          simp [h] at hid
    · intro hcb
      simp [mpesaCallbackPost, hne, hm, hcb]

/-- A successful matched callback for payment `"CR1"` carrying receipt
`"RCPT9"`. -/
def payloadMatchedGood : List (String × JVal) :=
  [("Body", .obj [("stkCallback",
      .obj [("CheckoutRequestID", .str "CR1"), ("ResultCode", .num 0),
            ("CallbackMetadata", .obj [("Item", .arr
              [.obj [("Name", .str "MpesaReceiptNumber"), ("Value", .str "RCPT9")]])])])])]

/-- C3 witness: the amended theorem applied at `dbCallback` with the
successful matched payload: payment and order end paid and the audit row is
appended. -/
theorem mpesa_callback_spec_witness :
    (mpesaCallbackPost dbCallback payloadMatchedGood).1
        = .ack (extract_checkout_request_id payloadMatchedGood) (some 1)
    ∧ (∀ p ∈ (mpesaCallbackPost dbCallback payloadMatchedGood).2.payments, p.id = 1 →
        p.status = .paid
        ∧ ∀ r, receiptText (some (.str "RCPT9")) = some r → p.transaction_id = some r)
    ∧ (∀ o ∈ (mpesaCallbackPost dbCallback payloadMatchedGood).2.orders, o.id = 1 →
        o.payment_status = .paid) := by
  have h := ((mpesa_callback_spec dbCallback payloadMatchedGood rfl).2
    ⟨1, 1, 100, some "CR1", .initiated, 0⟩ rfl).1 (some (.str "RCPT9")) rfl rfl
  exact ⟨h.1, h.2.2.1, h.2.2.2.1⟩


/-! ## C7 — agent auto-release on delivery -/

/-- The availability flag of an agent's profile, when a profile exists. -/
def agentAvailability (agents : List DeliveryAgent) (aid : Nat) : Option Bool :=
  (agents.find? (fun a => a.user_id = aid)).map (fun a => a.is_available)

theorem agentAvailability_ensureAvailable (agents : List DeliveryAgent) (aid : Nat) :
    agentAvailability (ensureAvailable agents aid) aid = some true := by
  unfold ensureAvailable
  cases hfa : agents.find? (fun a => a.user_id = aid) with
  | none =>
    unfold agentAvailability
    rw [List.find?_append, hfa]
    simp
  | some prof =>
    have hpid : prof.user_id = aid := by simpa using List.find?_some hfa
    unfold agentAvailability
    rw [List.find?_map]
    have hcong : (fun a : DeliveryAgent =>
        decide (((fun a : DeliveryAgent =>
          if a.user_id = aid then { a with is_available := true } else a) a).user_id = aid))
        = fun a : DeliveryAgent => decide (a.user_id = aid) := by
      funext a
      by_cases h : a.user_id = aid
      · simp [h]
      · simp [h]
    show ((agents.find? (fun a =>
        decide (((fun a : DeliveryAgent =>
          if a.user_id = aid then { a with is_available := true } else a) a).user_id = aid))).map
            (fun a : DeliveryAgent =>
              if a.user_id = aid then { a with is_available := true } else a)).map
        (fun a => a.is_available) = some true
    rw [hcong, hfa]
    simp [hpid]

/-- C7: when an order's delivery status is updated to "delivered" by an
authorised caller (its assigned agent, or a superadmin) and the order has
an assigned agent with a user row, then — on the orders table after the
change — if the agent has no remaining non-delivered order their profile
ends marked available, and if at least one non-delivered order remains the
agents table is untouched, so the availability flag is unchanged. -/
theorem order_status_delivered_release (db : DB) (orderId uid : Nat)
    (order : Order) (u : User) (aid : Nat)
    (horder : db.orders.find? (fun o => o.id = orderId) = some order)
    (huser : db.users.find? (fun x => x.id = uid) = some u)
    (hrole : (u.role = "delivery_agent" ∧ order.delivery_agent_id = some uid)
        ∨ u.role = "superadmin")
    (hagent : order.delivery_agent_id = some aid)
    (hagent_user : (db.users.find? (fun x => x.id = aid)).isSome) :
    (orderStatusPatch db orderId uid (some "delivered")).1 = .ok
    ∧ ((∀ o ∈ (orderStatusPatch db orderId uid (some "delivered")).2.orders,
          o.delivery_agent_id = some aid → o.delivery_status = .delivered) →
        agentAvailability (orderStatusPatch db orderId uid (some "delivered")).2.agents aid
          = some true)
    ∧ ((∃ o ∈ (orderStatusPatch db orderId uid (some "delivered")).2.orders,
          o.delivery_agent_id = some aid ∧ o.delivery_status ≠ .delivered) →
        (orderStatusPatch db orderId uid (some "delivered")).2.agents = db.agents) := by
  obtain ⟨au, hau⟩ := Option.isSome_iff_exists.mp hagent_user
  have hperm1 : ¬ (u.role = "delivery_agent" ∧ order.delivery_agent_id ≠ some uid) := by
    rcases hrole with ⟨hr, hda⟩ | hr
    · simp [hr, hda]
    · simp [hr]
  have hperm2 : ¬ ¬ (u.role = "delivery_agent" ∨ u.role = "superadmin") := by
    rcases hrole with ⟨hr, _⟩ | hr
    · exact not_not_intro (Or.inl hr)
    · exact not_not_intro (Or.inr hr)
  by_cases hrem : remainingNonDelivered (ordersWithStatus db orderId .delivered) aid = 0
  · have hres : orderStatusPatch db orderId uid (some "delivered")
        = (.ok,
           { db with
               orders := ordersWithStatus db orderId .delivered
               assignments := assignmentsWithStatus db orderId .delivered
               agents := ensureAvailable db.agents aid }) := by
      simp only [orderStatusPatch, horder, huser, hperm1, hperm2, hagent, hau]
      simp [parseDeliveryStatus, hrem]
      rcases hrole with ⟨hr, hda⟩ | hr
      · have haid : aid = uid := by
          rw [hagent] at hda
          exact Option.some.inj hda
        simp [hr, haid]
      · simp [hr]
    rw [hres]
    refine ⟨rfl, ?_, ?_⟩
    · intro _
      exact agentAvailability_ensureAvailable db.agents aid
    · intro hex
      exfalso
      rcases hex with ⟨o, ho_mem, ho_agent, ho_ne⟩
      have hmemf : o ∈ (ordersWithStatus db orderId .delivered).filter (fun o =>
          o.delivery_agent_id = some aid ∧ o.delivery_status ≠ .delivered) := by
        rw [List.mem_filter]
        exact ⟨ho_mem, by simp [ho_agent, ho_ne]⟩
      unfold remainingNonDelivered at hrem
      rw [List.length_eq_zero] at hrem
      rw [hrem] at hmemf
      exact absurd hmemf (List.not_mem_nil o)
  · have hres : orderStatusPatch db orderId uid (some "delivered")
        = (.ok,
           { db with
               orders := ordersWithStatus db orderId .delivered
               assignments := assignmentsWithStatus db orderId .delivered }) := by
      simp only [orderStatusPatch, horder, huser, hperm1, hperm2, hagent, hau]
      simp [parseDeliveryStatus, hrem]
      rcases hrole with ⟨hr, hda⟩ | hr
      · have haid : aid = uid := by
          rw [hagent] at hda
          exact Option.some.inj hda
        simp [hr, haid]
      · simp [hr]
    rw [hres]
    refine ⟨rfl, ?_, fun _ => rfl⟩
    intro hall
    exfalso
    have hpos : 0 < remainingNonDelivered (ordersWithStatus db orderId .delivered) aid :=
      Nat.pos_of_ne_zero hrem
    unfold remainingNonDelivered at hpos
    obtain ⟨o, ho⟩ := List.exists_mem_of_length_pos hpos
    rw [List.mem_filter] at ho
    rcases ho with ⟨ho_mem, ho_cond⟩
    have hco := of_decide_eq_true ho_cond
    exact hco.2 (hall o ho_mem hco.1)

/-- The delivery agent used by the C7 witness. -/
def agHome : User := ⟨9, "delivery_agent", true⟩

/-- An order assigned to agent 9, out for delivery. -/
def ordA : Order := ⟨1, 1, none, some 9, none, 0, 0, 0, .paid, .out_for_delivery, .placed⟩

/-- A second order assigned to agent 9, still assigned. -/
def ordB : Order := ⟨2, 1, none, some 9, none, 0, 0, 0, .paid, .assigned, .placed⟩

/-- A store where agent 9 is unavailable and carries the two orders. -/
def dbAgentW : DB :=
  ⟨[agHome], [], [], [], [], [ordA, ordB], [], [], [], [], [⟨9, false⟩], [], 5, 1⟩

/-- C7 witness: the theorem applied at `dbAgentW` — delivering order 1 while
order 2 is still open leaves the agents table (and so the availability
flag) unchanged. -/
theorem order_status_delivered_release_witness :
    (orderStatusPatch dbAgentW 1 9 (some "delivered")).1 = .ok
    ∧ (orderStatusPatch dbAgentW 1 9 (some "delivered")).2.agents = dbAgentW.agents := by
  have h := order_status_delivered_release dbAgentW 1 9 ordA agHome 9 rfl rfl
    (Or.inl ⟨rfl, rfl⟩) rfl rfl
  refine ⟨h.1, h.2.2 ?_⟩
  refine ⟨ordB, ?_, rfl, ?_⟩
  · show ordB ∈ (orderStatusPatch dbAgentW 1 9 (some "delivered")).2.orders
    have hlist : (orderStatusPatch dbAgentW 1 9 (some "delivered")).2.orders
        = [{ ordA with delivery_status := .delivered }, ordB] := rfl
    rw [hlist]
    exact List.Mem.tail _ (List.Mem.head _)
  · intro hcon
    exact OrderDeliveryStatus.noConfusion hcon

/-! ## Checkout helper lemmas -/

/-- The unit price of a product id in a product table (0 when absent; the
claims only use it where the lookup succeeds). -/
def priceOf (ps : List Product) (pid : Nat) : ℚ :=
  ((ps.find? (fun p => p.id = pid)).map (fun p => p.price)).getD 0

/-- The spec's "Σ(unit price × quantity) over the cart's lines". -/
def cartSubtotal (ps : List Product) (items : List CartItem) : ℚ :=
  (items.map (fun ci => priceOf ps ci.product_id * (ci.quantity : ℚ))).sum

theorem validateLines_sum (ps : List Product) (items : List CartItem)
    (lines : List CartLine) (t : ℚ)
    (h : validateLines ps items = .ok (lines, t)) :
    t = cartSubtotal ps items := by
  induction items generalizing lines t with
  | nil =>
    simp only [validateLines, Except.ok.injEq, Prod.mk.injEq] at h
    simp [cartSubtotal, ← h.2]
  | cons ci rest ih =>
    cases hf : ps.find? (fun p => p.id = ci.product_id) with
    | none => simp [validateLines, hf] at h
    | some p =>
      simp only [validateLines, hf] at h
      by_cases hbad : ¬ p.is_available = true ∨ p.quantity < ci.quantity
      · rw [if_pos hbad] at h
        exact absurd h (by simp)
      · rw [if_neg hbad] at h
        cases hv : validateLines ps rest with
        | error e =>
          rw [hv] at h
          exact absurd h (by simp)
        | ok pair =>
          obtain ⟨ls, t2⟩ := pair
          rw [hv] at h
          simp only [Except.ok.injEq, Prod.mk.injEq] at h
          have ht2 := ih ls t2 hv
          rw [← h.2, ht2]
          simp [cartSubtotal, priceOf, hf]

theorem validateLines_forall2 (ps : List Product) (items : List CartItem)
    (lines : List CartLine) (t : ℚ)
    (h : validateLines ps items = .ok (lines, t)) :
    List.Forall₂ (fun ci l => ps.find? (fun p => p.id = ci.product_id) = some l.product
      ∧ l.quantity = ci.quantity) items lines := by
  induction items generalizing lines t with
  | nil =>
    simp only [validateLines, Except.ok.injEq, Prod.mk.injEq] at h
    rw [← h.1]
    exact List.Forall₂.nil
  | cons ci rest ih =>
    cases hf : ps.find? (fun p => p.id = ci.product_id) with
    | none => simp [validateLines, hf] at h
    | some p =>
      simp only [validateLines, hf] at h
      by_cases hbad : ¬ p.is_available = true ∨ p.quantity < ci.quantity
      · rw [if_pos hbad] at h
        exact absurd h (by simp)
      · rw [if_neg hbad] at h
        cases hv : validateLines ps rest with
        | error e =>
          rw [hv] at h
          exact absurd h (by simp)
        | ok pair =>
          obtain ⟨ls, t2⟩ := pair
          rw [hv] at h
          simp only [Except.ok.injEq, Prod.mk.injEq] at h
          rw [← h.1]
          exact List.Forall₂.cons ⟨hf, rfl⟩ (ih ls t2 hv)

theorem forall2_exists_right {α β : Type} {R : α → β → Prop} {as : List α} {bs : List β}
    (h : List.Forall₂ R as bs) {a : α} (ha : a ∈ as) : ∃ b ∈ bs, R a b := by
  induction h with
  | nil => exact absurd ha (List.not_mem_nil a)
  | cons hr _ ih =>
    rcases List.mem_cons.mp ha with rfl | hmem
    · exact ⟨_, List.mem_cons_self _ _, hr⟩
    · obtain ⟨b, hb, hrb⟩ := ih hmem
      exact ⟨b, List.mem_cons_of_mem _ hb, hrb⟩

theorem forall2_pid_map (ps : List Product) (items : List CartItem) (lines : List CartLine)
    (h : List.Forall₂ (fun ci l => ps.find? (fun p => p.id = ci.product_id) = some l.product
      ∧ l.quantity = ci.quantity) items lines) :
    lines.map (fun l => l.product.id) = items.map (fun ci => ci.product_id) := by
  induction h with
  | nil => rfl
  | cons hr _ ih =>
    simp only [List.map_cons, ih, List.cons.injEq, and_true]
    have := List.find?_some hr.1
    simpa using this

/-- One step of the checkout decrement loop applied to a single product. -/
def applyLines (lines : List CartLine) (p : Product) : Product :=
  lines.foldl
    (fun p l => if p.id = l.product.id then { p with quantity := p.quantity - l.quantity } else p) p

theorem decrementStock_eq_map (ps : List Product) (lines : List CartLine) :
    decrementStock ps lines = ps.map (applyLines lines) := by
  induction lines generalizing ps with
  | nil =>
    show ps = ps.map (applyLines [])
    have happ : applyLines ([] : List CartLine) = id := funext (fun p => rfl)
    rw [happ, List.map_id]
  | cons l ls ih =>
    show decrementStock (ps.map (fun p =>
      if p.id = l.product.id then { p with quantity := p.quantity - l.quantity } else p)) ls
      = ps.map (applyLines (l :: ls))
    rw [ih, List.map_map]
    rfl

theorem applyLines_id_preserved (lines : List CartLine) (p : Product) :
    (applyLines lines p).id = p.id := by
  induction lines generalizing p with
  | nil => rfl
  | cons l ls ih =>
    show (applyLines ls (if p.id = l.product.id
      then { p with quantity := p.quantity - l.quantity } else p)).id = p.id
    by_cases h : p.id = l.product.id
    · rw [if_pos h, ih]
    · rw [if_neg h, ih]

theorem applyLines_no_match (lines : List CartLine) (p : Product)
    (h : ∀ l ∈ lines, ¬ p.id = l.product.id) : applyLines lines p = p := by
  induction lines with
  | nil => rfl
  | cons l ls ih =>
    show applyLines ls (if p.id = l.product.id
      then { p with quantity := p.quantity - l.quantity } else p) = p
    rw [if_neg (h l (List.mem_cons_self _ _))]
    exact ih (fun x hx => h x (List.mem_cons_of_mem _ hx))

theorem applyLines_unique (lines : List CartLine) (p : Product) (l0 : CartLine)
    (hnodup : (lines.map (fun l => l.product.id)).Nodup)
    (hl0 : l0 ∈ lines) (hid : p.id = l0.product.id) :
    applyLines lines p = { p with quantity := p.quantity - l0.quantity } := by
  induction lines with
  | nil => exact absurd hl0 (List.not_mem_nil l0)
  | cons a ls ih =>
    simp only [List.map_cons, List.nodup_cons] at hnodup
    rcases List.mem_cons.mp hl0 with rfl | hmem
    · show applyLines ls (if p.id = l0.product.id
        then { p with quantity := p.quantity - l0.quantity } else p)
        = { p with quantity := p.quantity - l0.quantity }
      rw [if_pos hid]
      apply applyLines_no_match
      intro x hx hcontra
      apply hnodup.1
      rw [List.mem_map]
      refine ⟨x, hx, ?_⟩
      show x.product.id = l0.product.id
      calc x.product.id
          = ({ p with quantity := p.quantity - l0.quantity } : Product).id := hcontra.symm
        _ = p.id := rfl
        _ = l0.product.id := hid
    · have hne : ¬ p.id = a.product.id := by
        intro hcontra
        apply hnodup.1
        rw [List.mem_map]
        exact ⟨l0, hmem, by rw [← hid, ← hcontra]⟩
      show applyLines ls (if p.id = a.product.id
        then { p with quantity := p.quantity - a.quantity } else p)
        = { p with quantity := p.quantity - l0.quantity }
      rw [if_neg hne]
      exact ih hnodup.2 hmem

theorem nodup_snd_of_pairs (l : List CartItem) (c : Nat)
    (hall : ∀ ci ∈ l, ci.cart_id = c)
    (h : (l.map (fun ci => (ci.cart_id, ci.product_id))).Nodup) :
    (l.map (fun ci => ci.product_id)).Nodup := by
  induction l with
  | nil => simp
  | cons a t ih =>
    simp only [List.map_cons, List.nodup_cons] at h ⊢
    refine ⟨?_, ih (fun ci hci => hall ci (List.mem_cons_of_mem _ hci)) h.2⟩
    intro hmem
    rcases List.mem_map.mp hmem with ⟨b, hb_mem, hb_eq⟩
    apply h.1
    rw [List.mem_map]
    refine ⟨b, hb_mem, ?_⟩
    have hac : a.cart_id = c := hall a (List.mem_cons_self _ _)
    have hbc : b.cart_id = c := hall b (List.mem_cons_of_mem _ hb_mem)
    rw [hac, hbc, hb_eq]

theorem cartItems_pid_nodup (db : DB) (hwf : wf db) (cartId : Nat) :
    ((cartItemsOf db cartId).map (fun ci => ci.product_id)).Nodup := by
  have hpairs : ((cartItemsOf db cartId).map
      (fun ci => (ci.cart_id, ci.product_id))).Nodup := by
    have hsub : List.Sublist
        ((cartItemsOf db cartId).map (fun ci => (ci.cart_id, ci.product_id)))
        (db.cartItems.map (fun ci => (ci.cart_id, ci.product_id))) :=
      List.Sublist.map _ (List.filter_sublist _)
    exact List.Nodup.sublist hsub hwf.2.2.2.2.2.1
  apply nodup_snd_of_pairs _ cartId _ hpairs
  intro ci hci
  have := List.of_mem_filter hci
  simpa using this

theorem validateLines_ok_of (ps : List Product) (items : List CartItem)
    (hvalid : ∀ ci ∈ items, ∃ p, ps.find? (fun x => x.id = ci.product_id) = some p
      ∧ p.is_available = true ∧ ci.quantity ≤ p.quantity) :
    ∃ lines t, validateLines ps items = .ok (lines, t) := by
  induction items with
  | nil => exact ⟨[], 0, rfl⟩
  | cons ci rest ih =>
    obtain ⟨p, hp, hav, hq⟩ := hvalid ci (List.mem_cons_self _ _)
    obtain ⟨ls, t2, hv⟩ := ih (fun x hx => hvalid x (List.mem_cons_of_mem _ hx))
    refine ⟨⟨p, ci.quantity⟩ :: ls, p.price * (ci.quantity : ℚ) + t2, ?_⟩
    have hcond : ¬ (¬ p.is_available = true ∨ p.quantity < ci.quantity) := by
      push_neg
      exact ⟨hav, hq⟩
    simp only [validateLines, hp]
    rw [if_neg hcond, hv]

theorem validateLines_error_of_bad (ps : List Product) (items : List CartItem)
    (hall : ∀ cj ∈ items, (ps.find? (fun x => x.id = cj.product_id)).isSome)
    (ci : CartItem) (p : Product)
    (hci : ci ∈ items)
    (hp : ps.find? (fun x => x.id = ci.product_id) = some p)
    (hbad : ¬ p.is_available = true ∨ p.quantity < ci.quantity) :
    ∃ name, validateLines ps items = .error (.badStock name) := by
  induction items with
  | nil => exact absurd hci (List.not_mem_nil ci)
  | cons a rest ih =>
    obtain ⟨pa, hpa⟩ := Option.isSome_iff_exists.mp (hall a (List.mem_cons_self _ _))
    by_cases hbad_a : ¬ pa.is_available = true ∨ pa.quantity < a.quantity
    · refine ⟨pa.name, ?_⟩
      simp only [validateLines, hpa]
      rw [if_pos hbad_a]
    · have hrest : ci ∈ rest := by
        rcases List.mem_cons.mp hci with rfl | hmem
        · exfalso
          rw [hp] at hpa
          exact hbad_a (Option.some.inj hpa ▸ hbad)
        · exact hmem
      obtain ⟨name, hname⟩ :=
        ih (fun x hx => hall x (List.mem_cons_of_mem _ hx)) hrest
      refine ⟨name, ?_⟩
      simp only [validateLines, hpa]
      rw [if_neg hbad_a, hname]

/-! ## C2 — checkout rejects insufficient stock with no partial writes -/

/-- C2: a checkout request against a cart holding a line whose product is
unavailable or whose requested quantity exceeds current stock fails with an
InvalidInput (400) response, and the store — order rows, order items,
product stock, and the cart's items included — is completely unchanged. -/
theorem checkout_insufficient_stock (db : DB) (uid : Nat) (sa : Option Int)
    (cart : Cart) (ci : CartItem) (p : Product)
    (hwf : wf db)
    (hcart : db.carts.find? (fun c => c.buyer_id = uid) = some cart)
    (hci : ci ∈ cartItemsOf db cart.id)
    (hp : db.products.find? (fun x => x.id = ci.product_id) = some p)
    (hbad : ¬ p.is_available = true ∨ p.quantity < ci.quantity) :
    (∃ msg, (orderCheckout db uid sa).1 = .badRequest msg)
    ∧ (orderCheckout db uid sa).2 = db := by
  have hne : (cartItemsOf db cart.id).isEmpty = false := by
    cases hie : (cartItemsOf db cart.id).isEmpty
    · rfl
    · exfalso
      rw [List.isEmpty_iff] at hie
      rw [hie] at hci
      exact absurd hci (List.not_mem_nil ci)
  have hall : ∀ cj ∈ cartItemsOf db cart.id,
      (db.products.find? (fun x => x.id = cj.product_id)).isSome := by
    intro cj hcj
    have hcj2 : cj ∈ db.cartItems := List.mem_of_mem_filter hcj
    obtain ⟨q, hq_mem, hq_id⟩ := hwf.2.2.2.2.2.2.1 cj hcj2
    rw [List.find?_isSome]
    exact ⟨q, hq_mem, by simp [hq_id]⟩
  obtain ⟨name, hname⟩ :=
    validateLines_error_of_bad db.products (cartItemsOf db cart.id) hall ci p hci hp hbad
  cases sa with
  | none =>
    constructor
    · exact ⟨"Shipping address is required", by simp [orderCheckout, hcart, hne]⟩
    · simp [orderCheckout, hcart, hne]
  | some said =>
    by_cases hz : said = 0
    · constructor
      · exact ⟨"Shipping address is required", by simp [orderCheckout, hcart, hne, hz]⟩
      · simp [orderCheckout, hcart, hne, hz]
    · cases hloc : db.locations.find? (fun l => (l.id : Int) = said) with
      | none =>
        constructor
        · exact ⟨"Invalid shipping address", by simp [orderCheckout, hcart, hne, hz, hloc]⟩
        · simp [orderCheckout, hcart, hne, hz, hloc]
      | some addr =>
        constructor
        · exact ⟨"Product " ++ name ++ " is not available in requested quantity",
            by simp [orderCheckout, hcart, hne, hz, hloc, hname]⟩
        · simp [orderCheckout, hcart, hne, hz, hloc, hname]

/-- A buyer, two products, a destination and a cart used by the checkout
witnesses: product 2 is under-stocked for the requested quantity. -/
def dbShort : DB :=
  ⟨[⟨1, "buyer", true⟩],
   [⟨1, 10, "Apples", 10, 5, some 2, true⟩, ⟨2, 11, "Beans", 3, 2, none, true⟩],
   [⟨5, some 99⟩], [⟨7, 1⟩], [⟨7, 1, 3⟩, ⟨7, 2, 4⟩], [], [], [], [], [], [], [], 100, 200⟩

/-- C2 witness: the theorem applied at `dbShort` (cart line 2 asks 4 of
stock 2): checkout answers 400 and the store is untouched. -/
theorem checkout_insufficient_stock_witness :
    (∃ msg, (orderCheckout dbShort 1 (some 5)).1 = .badRequest msg)
    ∧ (orderCheckout dbShort 1 (some 5)).2 = dbShort :=
  checkout_insufficient_stock dbShort 1 (some 5) ⟨7, 1⟩ ⟨7, 2, 4⟩
    ⟨2, 11, "Beans", 3, 2, none, true⟩ (by decide) rfl (by decide) rfl (by decide)

/-! ## C10 — checkout performs no ownership check on the shipping address -/

/-- C10: with a valid non-empty cart, checkout against any existing location
— whatever its `user_id`, the quantification is over every owner value —
creates the order with that location as shipping address; only an id that
matches no location at all fails (with a 400 "Invalid shipping address"). -/
theorem checkout_shipping_no_ownership (db : DB) (uid : Nat) (said : Int) (cart : Cart)
    (hwf : wf db)
    (hcart : db.carts.find? (fun c => c.buyer_id = uid) = some cart)
    (hne : (cartItemsOf db cart.id).isEmpty = false)
    (hvalid : ∀ ci ∈ cartItemsOf db cart.id, ∃ p,
      db.products.find? (fun x => x.id = ci.product_id) = some p
      ∧ p.is_available = true ∧ ci.quantity ≤ p.quantity)
    (hz : ¬ said = 0) :
    (∀ l, db.locations.find? (fun x => (x.id : Int) = said) = some l →
      ((orderCheckout db uid (some said)).1.isCreated = true
        ∧ ∀ o q, (orderCheckout db uid (some said)).1 = .created o q →
            o.shipping_address_id = some l.id))
    ∧ (db.locations.find? (fun x => (x.id : Int) = said) = none →
      (orderCheckout db uid (some said)).1 = .badRequest "Invalid shipping address"
      ∧ (orderCheckout db uid (some said)).2 = db) := by
  obtain ⟨lines, t, hval⟩ := validateLines_ok_of db.products (cartItemsOf db cart.id) hvalid
  constructor
  · intro l hl
    have hlid : said.toNat = l.id := by
      have h1 := List.find?_some hl
      have h2 : (l.id : Int) = said := by simpa using h1
      rw [← h2]
      exact Int.toNat_natCast l.id
    constructor
    · simp [orderCheckout, hcart, hne, hz, hl, hval, CheckoutResp.isCreated]
    · intro o q hoq
      simp only [orderCheckout, hcart, hne, hz, hl, hval, Bool.false_eq_true, if_false,
        ite_false, reduceIte] at hoq
      rw [CheckoutResp.created.injEq] at hoq
      rw [← hoq.1, hlid]
  · intro hl
    constructor
    · simp [orderCheckout, hcart, hne, hz, hl]
    · simp [orderCheckout, hcart, hne, hz, hl]

/-- A buyer with a fully-stocked two-line cart; the only location, id 5, is
owned by the unrelated user 99. -/
def dbOk : DB :=
  ⟨[⟨1, "buyer", true⟩],
   [⟨1, 10, "Apples", 10, 5, some 2, true⟩, ⟨2, 11, "Beans", 3, 4, none, true⟩],
   [⟨5, some 99⟩], [⟨7, 1⟩], [⟨7, 1, 3⟩, ⟨7, 2, 4⟩], [], [], [], [], [], [], [], 100, 200⟩

theorem dbOk_cart_valid : ∀ ci ∈ cartItemsOf dbOk 7, ∃ p,
    dbOk.products.find? (fun x => x.id = ci.product_id) = some p
    ∧ p.is_available = true ∧ ci.quantity ≤ p.quantity := by
  intro ci hci
  have hlist : cartItemsOf dbOk 7 = [⟨7, 1, 3⟩, ⟨7, 2, 4⟩] := by decide
  rw [hlist] at hci
  rcases List.mem_cons.mp hci with rfl | hci2
  · exact ⟨⟨1, 10, "Apples", 10, 5, some 2, true⟩, rfl, rfl, by decide⟩
  rcases List.mem_cons.mp hci2 with rfl | hci3
  · exact ⟨⟨2, 11, "Beans", 3, 4, none, true⟩, rfl, rfl, by decide⟩
  · exact absurd hci3 (List.not_mem_nil ci)

/-- C10 witness: the theorem applied at `dbOk` — the order is created and
its shipping address is location 5, owned by user 99, not the buyer. -/
theorem checkout_shipping_no_ownership_witness :
    (orderCheckout dbOk 1 (some 5)).1.isCreated = true
    ∧ ∀ o q, (orderCheckout dbOk 1 (some 5)).1 = .created o q →
        o.shipping_address_id = some 5 :=
  (checkout_shipping_no_ownership dbOk 1 5 ⟨7, 1⟩ (by decide) rfl (by decide)
    dbOk_cart_valid (by decide)).1 ⟨5, some 99⟩ rfl

/-! ## C1 — checkout totals, stock decrement, cart cleared -/

/-- C1: whenever checkout succeeds (201), the created order's
total-items-amount is Σ(unit price × quantity) over the buyer's cart lines
as of the pre-checkout store, its total-price is that amount plus the
estimator's delivery cost, every product referenced by a cart line has its
stock decremented by exactly that line's quantity, and the buyer's cart
has no items afterwards. -/
theorem checkout_success_spec (db : DB) (uid : Nat) (sa : Option Int)
    (hwf : wf db) (hc : ((orderCheckout db uid sa).1).isCreated = true) :
    ∃ cart ∈ db.carts, cart.buyer_id = uid
      ∧ ∀ o q, (orderCheckout db uid sa).1 = .created o q →
          (o.total_items_amount = cartSubtotal db.products (cartItemsOf db cart.id)
          ∧ o.total_price = o.total_items_amount + q.amount
          ∧ o.delivery_cost = q.amount
          ∧ (∀ ci ∈ cartItemsOf db cart.id, ∀ p ∈ db.products, p.id = ci.product_id →
              ∃ p2 ∈ (orderCheckout db uid sa).2.products,
                p2.id = p.id ∧ p2.quantity = p.quantity - ci.quantity)
          ∧ cartItemsOf (orderCheckout db uid sa).2 cart.id = []) := by
  cases hcart : db.carts.find? (fun c => c.buyer_id = uid) with
  | none =>
    exfalso
    simp [orderCheckout, hcart, CheckoutResp.isCreated] at hc
  | some cart =>
    have hcmem := List.mem_of_find?_eq_some hcart
    have hbuy : cart.buyer_id = uid := by simpa using List.find?_some hcart
    refine ⟨cart, hcmem, hbuy, ?_⟩
    intro o q hoq
    cases hne : (cartItemsOf db cart.id).isEmpty with
    | true =>
      exfalso
      simp [orderCheckout, hcart, hne, CheckoutResp.isCreated] at hc
    | false =>
    cases sa with
    | none =>
      exfalso
      simp [orderCheckout, hcart, hne, CheckoutResp.isCreated] at hc
    | some said =>
    by_cases hz : said = 0
    · exfalso
      simp [orderCheckout, hcart, hne, hz, CheckoutResp.isCreated] at hc
    cases hloc : db.locations.find? (fun x => (x.id : Int) = said) with
    | none =>
      exfalso
      simp [orderCheckout, hcart, hne, hz, hloc, CheckoutResp.isCreated] at hc
    | some addr =>
    cases hval : validateLines db.products (cartItemsOf db cart.id) with
    | error e =>
      exfalso
      cases e with
      | productMissing =>
        simp [orderCheckout, hcart, hne, hz, hloc, hval, CheckoutResp.isCreated] at hc
      | badStock name =>
        simp [orderCheckout, hcart, hne, hz, hloc, hval, CheckoutResp.isCreated] at hc
    | ok pair =>
    obtain ⟨lines, t⟩ := pair
    simp only [orderCheckout, hcart, hne, hz, hloc, hval, Bool.false_eq_true, if_false,
      ite_false, reduceIte] at hoq
    rw [CheckoutResp.created.injEq] at hoq
    obtain ⟨ho, hq⟩ := hoq
    have hprod : (orderCheckout db uid (some said)).2.products
        = decrementStock db.products lines := by
      simp only [orderCheckout, hcart, hne, hz, hloc, hval, Bool.false_eq_true, if_false,
        ite_false, reduceIte]
    have hcartitems : (orderCheckout db uid (some said)).2.cartItems
        = db.cartItems.filter (fun ci => ¬ ci.cart_id = cart.id) := by
      simp only [orderCheckout, hcart, hne, hz, hloc, hval, Bool.false_eq_true, if_false,
        ite_false, reduceIte]
    have hf2 := validateLines_forall2 db.products (cartItemsOf db cart.id) lines t hval
    refine ⟨?_, ?_, ?_, ?_, ?_⟩
    · rw [← ho]
      exact validateLines_sum db.products (cartItemsOf db cart.id) lines t hval
    · rw [← ho, ← hq]
    · rw [← ho, ← hq]
    · intro ci hci p hp_mem hpid
      obtain ⟨l0, hl0_mem, hl0⟩ := forall2_exists_right hf2 hci
      have hl0pid : l0.product.id = ci.product_id := by simpa using List.find?_some hl0.1
      have hl0ps : l0.product ∈ db.products := List.mem_of_find?_eq_some hl0.1
      have hlines_pid : (lines.map (fun l => l.product.id)).Nodup := by
        rw [forall2_pid_map db.products (cartItemsOf db cart.id) lines hf2]
        exact cartItems_pid_nodup db hwf cart.id
      have hpid2 : p.id = l0.product.id := by rw [hpid, hl0pid]
      refine ⟨applyLines lines p, ?_, applyLines_id_preserved lines p, ?_⟩
      · rw [hprod, decrementStock_eq_map]
        exact List.mem_map_of_mem (applyLines lines) hp_mem
      · rw [applyLines_unique lines p l0 hlines_pid hl0_mem hpid2, hl0.2]
    · show ((orderCheckout db uid (some said)).2.cartItems).filter
        (fun ci => ci.cart_id = cart.id) = []
      rw [hcartitems]
      exact filter_of_filter_not db.cartItems cart.id

/-- C1 witness: the theorem applied at `dbOk`: checkout succeeds, and the
created order satisfies all the total/stock/cart postconditions. -/
theorem checkout_success_spec_witness :
    ∃ cart ∈ dbOk.carts, cart.buyer_id = 1
      ∧ ∀ o q, (orderCheckout dbOk 1 (some 5)).1 = .created o q →
          (o.total_items_amount = cartSubtotal dbOk.products (cartItemsOf dbOk cart.id)
          ∧ o.total_price = o.total_items_amount + q.amount
          ∧ o.delivery_cost = q.amount
          ∧ (∀ ci ∈ cartItemsOf dbOk cart.id, ∀ p ∈ dbOk.products, p.id = ci.product_id →
              ∃ p2 ∈ (orderCheckout dbOk 1 (some 5)).2.products,
                p2.id = p.id ∧ p2.quantity = p.quantity - ci.quantity)
          ∧ cartItemsOf (orderCheckout dbOk 1 (some 5)).2 cart.id = []) :=
  checkout_success_spec dbOk 1 (some 5) (by decide) rfl
